import Mathlib

/-!
# Verification of the onchain-actions batching queue

Shallow embedding of `src/src/stores/useOnchainActions.ts` (the
action-batching queue of foc-engine.js) and proofs about it.

Modelling conventions:
* An `Action` (the TS `Call`) is opaque; definitions are parametric in `α`.
* JS `number` configuration fields are modelled as `Int` (the claims under
  study involve no fractional or NaN behaviour beyond env parsing, which is
  modelled by `jsNumber?`).
* The zustand store state is the record `QState`.  `set`/`get` calls are
  explicit state passing; each store method becomes a function
  `QState α → ... → QState α × List (QEvent α)` where the event list records
  the externally observable callback invocations (executor `submit` calls and
  `onError` invocations) made during that step, in order.
* `forceBatchExecution` suspends at `await invokeActions(...)`: its
  synchronous prefix (guard, flag set, batch removal, starting the executor
  call) is `forceBatchBegin`; the resolution or rejection of the executor
  call is the separate step `settleInvoke`.  The batch captured in the async
  frame (`actionsToInvoke`) is carried in the state as `inFlight`.
* The debounce timer handle is abstracted to the Boolean `debounceTimer`
  ("a timer is armed"); real-time firing and `lastInvokeTime` (wall-clock
  `Date.now()`) are environmental and outside the embedding — no claim under
  study depends on them.
* The executor callback `invokeActions` is external; the state only records
  whether one is installed (`hasExecutor`).  In `createOnchainActionsStore`
  it is always installed (`finalConfig.onBatchReady` is defined after the
  merge); in the default store it starts absent until `onInvokeActions`.
* The error value passed to `onError` is whatever the executor rejected
  with; it is opaque and not modelled, only the batch argument is.
-/

/-- Externally observable callback invocations of the queue. -/
inductive QEvent (α : Type) where
  /-- The executor callback `invokeActions` was started on this batch. -/
  | submit (batch : List α)
  /-- The callback `finalConfig.onError` was invoked with this failed batch. -/
  | errorCallback (batch : List α)
deriving DecidableEq, Repr

/-- The store state of `useOnchainActions.ts` (fields of
`OnchainActionsState` that the embedded operations read or write, plus the
`inFlight` batch captured in the suspended `forceBatchExecution` frame). -/
structure QState (α : Type) where
  actions : List α
  maxActions : Int
  autoInvoke : Bool
  batchSize : Int
  debounceMs : Int
  pendingInvoke : Bool
  /-- Whether a debounce timer is armed (`debounceTimer !== undefined`). -/
  debounceTimer : Bool
  /-- Whether `invokeActions` is installed (truthy). -/
  hasExecutor : Bool
  /-- The `actionsToInvoke` batch of a suspended `forceBatchExecution`. -/
  inFlight : Option (List α)
deriving DecidableEq, Repr

namespace OnchainActions

variable {α : Type}

/-- Synchronous prefix of `forceBatchExecution` (lines 328-343): guard, set
`pendingInvoke`, clear the debounce timer, remove the whole queue as
`actionsToInvoke` and start the executor call on it. -/
def forceBatchBegin (s : QState α) : QState α × List (QEvent α) :=
  if s.pendingInvoke || s.actions.isEmpty || !s.hasExecutor then
    (s, [])
  else
    ({ s with pendingInvoke := true, debounceTimer := false,
              actions := [], inFlight := some s.actions },
     [QEvent.submit s.actions])

/-- Resolution (`ok = true`) or rejection (`ok = false`) of the executor
call awaited by `forceBatchExecution` (lines 345-356): on rejection invoke
`finalConfig.onError` with the failed batch, prepend the batch to the
current queue; in both cases clear `pendingInvoke`. -/
def settleInvoke (ok : Bool) (s : QState α) : QState α × List (QEvent α) :=
  match s.inFlight with
  | none => (s, [])
  | some batch =>
    if ok then
      ({ s with pendingInvoke := false, inFlight := none }, [])
    else
      ({ s with actions := batch ++ s.actions,
                pendingInvoke := false, inFlight := none },
       [QEvent.errorCallback batch])

/-- Embeds `addAction` (lines 248-275): append, auto-invoke / debounce trigger
check against the pre-call state snapshot, then the overflow check against
the (possibly stale) `updatedActions` array. -/
def addAction (s : QState α) (a : α) : QState α × List (QEvent α) :=
  let updated := s.actions ++ [a]
  let s1 : QState α := { s with actions := updated }
  let step :=
    if s.autoInvoke = true ∧ (updated.length : Int) ≥ s.batchSize then
      forceBatchBegin s1
    else if s.autoInvoke = true ∧ s.debounceMs > 0 then
      ({ s1 with debounceTimer := true }, [])
    else
      (s1, [])
  if (updated.length : Int) > s.maxActions then
    ({ step.1 with
        actions := updated.drop ((updated.length - s.maxActions).toNat) },
     step.2)
  else
    step

/-- Embeds `addActions` (lines 277-279): `actions.forEach(a => get().addAction(a))`,
re-reading the store state before each element. -/
def addActions (s : QState α) (l : List α) : QState α × List (QEvent α) :=
  l.foldl (fun p a =>
    let r := addAction p.1 a
    (r.1, p.2 ++ r.2)) (s, [])

/-- The function `addSequentially` follows the spec's words for `addMultiple`: "invoking
`add` once per element in order", trigger evaluation after each individual
append, threading the resulting state. -/
def addSequentially (s : QState α) : List α → QState α × List (QEvent α)
  | [] => (s, [])
  | a :: rest =>
    let r := addAction s a
    let rr := addSequentially r.1 rest
    (rr.1, r.2 ++ rr.2)

/-- Embeds `clearActions` (lines 281-287): empty the queue, cancel an armed
debounce timer. -/
def clearActions (s : QState α) : QState α :=
  { s with actions := [], debounceTimer := false }

/-- Embeds `setMaxActions` (lines 291-293): only positive values are applied. -/
def setMaxActions (s : QState α) (m : Int) : QState α :=
  if m > 0 then { s with maxActions := m } else s

/-- Embeds `setAutoInvoke` (lines 295-297). -/
def setAutoInvoke (s : QState α) (b : Bool) : QState α :=
  { s with autoInvoke := b }

/-- Embeds `setBatchSize` (lines 299-301): only positive values are applied. -/
def setBatchSize (s : QState α) (n : Int) : QState α :=
  if n > 0 then { s with batchSize := n } else s

/-- Embeds `setDebounceMs` (lines 303-305): only non-negative values are applied. -/
def setDebounceMs (s : QState α) (n : Int) : QState α :=
  if n ≥ 0 then { s with debounceMs := n } else s

/-- A `Partial<OnchainActionsConfig>` restricted to the four data fields
(`none` models an absent key). -/
structure PartialConfig where
  maxActionsField : Option Int
  autoInvokeField : Option Bool
  batchSizeField : Option Int
  debounceMsField : Option Int
deriving DecidableEq, Repr

/-- Embeds `updateConfig` (lines 307-312): forward each defined field to the
corresponding setter, in source order. -/
def updateConfig (s : QState α) (p : PartialConfig) : QState α :=
  let s1 := match p.maxActionsField with
    | some m => setMaxActions s m
    | none => s
  let s2 := match p.autoInvokeField with
    | some b => setAutoInvoke s1 b
    | none => s1
  let s3 := match p.batchSizeField with
    | some n => setBatchSize s2 n
    | none => s2
  match p.debounceMsField with
  | some n => setDebounceMs s3 n
  | none => s3

/-- Accumulates decimal digits; any non-digit character makes the parse
fail (a JS NaN). -/
def decDigitsAux : List Char → Nat → Option Nat
  | [], acc => some acc
  | c :: cs, acc =>
    if c.isDigit then decDigitsAux cs (acc * 10 + (c.toNat - Char.toNat (Char.ofNat 48)))
    else none

/-- Models `Number(v)` restricted to decimal-integer strings: optional
leading minus, then digits; anything else is a NaN (`none`).  (JS corner
cases such as `Number("") = 0`, whitespace trimming or fractional values
are outside the integer-valued configurations the claims quantify over.) -/
def jsNumber? (v : String) : Option Int :=
  match v.data with
  | '-' :: c :: cs => (decDigitsAux (c :: cs) 0).map (fun n => -(n : Int))
  | [] => none
  | cs => (decDigitsAux cs 0).map (fun n => (n : Int))

/-- Models `v.toLowerCase() === 'true' || v === '1'` (ASCII lowering over
the character list, since the env keys carry ASCII values). -/
def jsTruthyFlag (v : String) : Bool :=
  (v.data.map Char.toLower == ("true" : String).data) || v == "1"

/-- Embeds `getEnvNumber` (lines 46-63): the `process.env` lookup is tried
first, then the `window.env` lookup; a set variable is used only when
`!isNaN(Number(v))` — a set but non-numeric value parses to `none` and
falls through, like a NaN in the source. -/
def getEnvNumber (penv wenv : String → Option String) (key : String)
    (defaultValue : Int) : Int :=
  match (penv key).bind jsNumber? with
  | some n => n
  | none =>
    match (wenv key).bind jsNumber? with
    | some n => n
    | none => defaultValue

/-- Embeds `getEnvBoolean` (lines 65-81): a set variable short-circuits (even when
its value parses to `false`); the value is true iff it lowercases to
`"true"` or equals `"1"`. -/
def getEnvBoolean (penv wenv : String → Option String) (key : String)
    (defaultValue : Bool) : Bool :=
  match penv key with
  | some v => jsTruthyFlag v
  | none =>
    match wenv key with
    | some v => jsTruthyFlag v
    | none => defaultValue

/-- The four resolved data fields of `Required<OnchainActionsConfig>`. -/
structure ResolvedConfig where
  maxActions : Int
  autoInvoke : Bool
  batchSize : Int
  debounceMs : Int
deriving DecidableEq, Repr

/-- Embeds `getDefaultConfig` (lines 84-91): environment-sourced overrides of the
hardcoded defaults. -/
def getDefaultConfig (penv wenv : String → Option String) : ResolvedConfig :=
  { maxActions := getEnvNumber penv wenv "FOC_MAX_ACTIONS" 50
    autoInvoke := getEnvBoolean penv wenv "FOC_AUTO_INVOKE" true
    batchSize := getEnvNumber penv wenv "FOC_BATCH_SIZE" 10
    debounceMs := getEnvNumber penv wenv "FOC_DEBOUNCE_MS" 1000 }

/-- Embeds `createOnchainActionsStore` at its config merge (lines 233-234):
`{ ...defaultConfig, ...config }` — an explicit field wins over the
environment-resolved default. -/
def resolveConfig (explicitCfg : PartialConfig)
    (penv wenv : String → Option String) : ResolvedConfig :=
  let d := getDefaultConfig penv wenv
  { maxActions := explicitCfg.maxActionsField.getD d.maxActions
    autoInvoke := explicitCfg.autoInvokeField.getD d.autoInvoke
    batchSize := explicitCfg.batchSizeField.getD d.batchSize
    debounceMs := explicitCfg.debounceMsField.getD d.debounceMs }

/-- Initial store state (lines 237-245): empty queue, resolved config,
nothing pending.  `hasExec` is `true` for the factory store (where
`invokeActions := finalConfig.onBatchReady` is always defined) and `false`
for the default store before `onInvokeActions` is called. -/
def initState (α : Type) (cfg : ResolvedConfig) (hasExec : Bool) : QState α :=
  { actions := []
    maxActions := cfg.maxActions
    autoInvoke := cfg.autoInvoke
    batchSize := cfg.batchSize
    debounceMs := cfg.debounceMs
    pendingInvoke := false
    debounceTimer := false
    hasExecutor := hasExec
    inFlight := none }

/-- The configuration well-formedness predicate of the setter guards. -/
def ConfigValid (s : QState α) : Prop :=
  0 < s.maxActions ∧ 0 < s.batchSize ∧ 0 ≤ s.debounceMs

instance (s : QState α) : Decidable (ConfigValid s) := by
  unfold ConfigValid; infer_instance


/-! ## Basic lemmas -/

/-- Unfolding `addActions` one element at a time, with an arbitrary event
accumulator. -/
lemma addActions_acc (l : List α) :
    ∀ (s : QState α) (acc : List (QEvent α)),
      l.foldl (fun p a => ((addAction p.1 a).1, p.2 ++ (addAction p.1 a).2))
          (s, acc)
        = ((addActions s l).1, acc ++ (addActions s l).2) := by
  induction l with
  | nil =>
    intro s acc
    simp [addActions]
  | cons a rest ih =>
    intro s acc
    have h1 : (a :: rest).foldl
        (fun p a => ((addAction p.1 a).1, p.2 ++ (addAction p.1 a).2)) (s, acc)
        = rest.foldl
            (fun p a => ((addAction p.1 a).1, p.2 ++ (addAction p.1 a).2))
            ((addAction s a).1, acc ++ (addAction s a).2) := rfl
    have h2 : addActions s (a :: rest)
        = ((addActions (addAction s a).1 rest).1,
           (addAction s a).2 ++ (addActions (addAction s a).1 rest).2) :=
      ih (addAction s a).1 (addAction s a).2
    rw [h1, ih, h2]
    simp

lemma addActions_nil (s : QState α) : addActions s ([] : List α) = (s, []) := rfl

lemma addActions_cons (s : QState α) (a : α) (l : List α) :
    addActions s (a :: l)
      = ((addActions (addAction s a).1 l).1,
         (addAction s a).2 ++ (addActions (addAction s a).1 l).2) :=
  addActions_acc l (addAction s a).1 (addAction s a).2

/-- The `forEach`-based `addActions` coincides with the spec's sequential
single adds. -/
lemma addActions_eq_seq (s : QState α) (l : List α) :
    addActions s l = addSequentially s l := by
  induction l generalizing s with
  | nil => rfl
  | cons a rest ih =>
    rw [addActions_cons, addSequentially, ih]

/-- One `addAction` never changes the configuration fields nor the executor
installation. -/
lemma addAction_fields (s : QState α) (a : α) :
    (addAction s a).1.maxActions = s.maxActions ∧
    (addAction s a).1.autoInvoke = s.autoInvoke ∧
    (addAction s a).1.batchSize = s.batchSize ∧
    (addAction s a).1.debounceMs = s.debounceMs ∧
    (addAction s a).1.hasExecutor = s.hasExecutor := by
  simp only [addAction, forceBatchBegin]
  split <;> split <;> (try split) <;> simp

/-- When the auto-invoke trigger cannot fire a flush (an execution is
already pending, or auto-invoke is off, or the threshold is not reached)
and the appended queue does not overflow, `addAction` is a plain append
with no executor events. -/
lemma addAction_no_flush (s : QState α) (a : α)
    (h : s.pendingInvoke = true ∨ s.autoInvoke = false ∨
         (s.actions.length + 1 : Int) < s.batchSize)
    (hmax : (s.actions.length + 1 : Int) ≤ s.maxActions) :
    (addAction s a).1.actions = s.actions ++ [a] ∧
    (addAction s a).2 = [] ∧
    (addAction s a).1.pendingInvoke = s.pendingInvoke ∧
    (addAction s a).1.inFlight = s.inFlight := by
  have hov : ¬ (((s.actions ++ [a]).length : Int) > s.maxActions) := by
    simp only [List.length_append, List.length_singleton]
    omega
  simp only [addAction, if_neg hov]
  by_cases hc1 : s.autoInvoke = true ∧ ((s.actions ++ [a]).length : Int) ≥ s.batchSize
  · rw [if_pos hc1]
    have hp : s.pendingInvoke = true := by
      rcases h with h | h | h
      · exact h
      · exact absurd hc1.1 (by simp [h])
      · exfalso
        have := hc1.2
        simp only [List.length_append, List.length_singleton] at this
        omega
    simp [forceBatchBegin, hp]
  · rw [if_neg hc1]
    by_cases hc2 : s.autoInvoke = true ∧ s.debounceMs > 0
    · rw [if_pos hc2]
      simp
    · rw [if_neg hc2]
      simp

/-- Appending two add sequences composes state threading and event logs. -/
lemma addActions_append (s : QState α) (l1 l2 : List α) :
    addActions s (l1 ++ l2)
      = ((addActions (addActions s l1).1 l2).1,
         (addActions s l1).2 ++ (addActions (addActions s l1).1 l2).2) := by
  induction l1 generalizing s with
  | nil => simp [addActions_nil]
  | cons a rest ih =>
    simp only [List.cons_append, addActions_cons, ih]
    simp [List.append_assoc]

/-- List version of `addAction_no_flush`: a whole sequence of adds that
never reaches the batch threshold (or cannot flush) and never overflows is
a plain append, with no events and all other relevant fields unchanged. -/
lemma addSeq_no_flush (l : List α) (s : QState α)
    (h : s.pendingInvoke = true ∨ s.autoInvoke = false ∨
         (s.actions.length + l.length : Int) < s.batchSize)
    (hmax : (s.actions.length + l.length : Int) ≤ s.maxActions) :
    (addActions s l).1.actions = s.actions ++ l ∧
    (addActions s l).2 = [] ∧
    (addActions s l).1.pendingInvoke = s.pendingInvoke ∧
    (addActions s l).1.inFlight = s.inFlight ∧
    (addActions s l).1.maxActions = s.maxActions ∧
    (addActions s l).1.autoInvoke = s.autoInvoke ∧
    (addActions s l).1.batchSize = s.batchSize ∧
    (addActions s l).1.debounceMs = s.debounceMs ∧
    (addActions s l).1.hasExecutor = s.hasExecutor := by
  induction l generalizing s with
  | nil => simp [addActions_nil]
  | cons a rest ih =>
    have hone : s.pendingInvoke = true ∨ s.autoInvoke = false ∨
        (s.actions.length + 1 : Int) < s.batchSize := by
      rcases h with h | h | h
      · exact Or.inl h
      · exact Or.inr (Or.inl h)
      · refine Or.inr (Or.inr ?_)
        simp only [List.length_cons] at h
        omega
    have hone2 : (s.actions.length + 1 : Int) ≤ s.maxActions := by
      simp only [List.length_cons] at hmax
      omega
    obtain ⟨ha, he, hp, hf⟩ := addAction_no_flush s a hone hone2
    obtain ⟨f1, f2, f3, f4, f5⟩ := addAction_fields s a
    have hlen : ((addAction s a).1.actions.length : Int) = s.actions.length + 1 := by
      rw [ha]; simp
    have ih2 := ih (addAction s a).1
      (by
        rcases h with h | h | h
        · exact Or.inl (by rw [hp, h])
        · exact Or.inr (Or.inl (by rw [f2, h]))
        · refine Or.inr (Or.inr ?_)
          rw [hlen, f3]
          simp only [List.length_cons] at h
          omega)
      (by
        rw [hlen, f1]
        simp only [List.length_cons] at hmax
        omega)
    obtain ⟨g1, g2, g3, g4, g5, g6, g7, g8, g9⟩ := ih2
    rw [addActions_cons]
    refine ⟨?_, ?_, ?_, ?_, ?_, ?_, ?_, ?_, ?_⟩
    · rw [g1, ha]; simp
    · rw [he, g2]; rfl
    · rw [g3, hp]
    · rw [g4, hf]
    · rw [g5, f1]
    · rw [g6, f2]
    · rw [g7, f3]
    · rw [g8, f4]
    · rw [g9, f5]

/-- When the size trigger fires on a flushable state, the add step emits
exactly one executor call, carrying the whole updated queue. -/
lemma addAction_trigger_events (s : QState α) (a : α)
    (hauto : s.autoInvoke = true)
    (hbs : (s.actions.length + 1 : Int) ≥ s.batchSize)
    (hpend : s.pendingInvoke = false)
    (hexec : s.hasExecutor = true) :
    (addAction s a).2 = [QEvent.submit (s.actions ++ [a])] := by
  have hc1 : s.autoInvoke = true ∧ ((s.actions ++ [a]).length : Int) ≥ s.batchSize := by
    refine ⟨hauto, ?_⟩
    simp only [List.length_append, List.length_singleton]
    omega
  have hguard : ¬ ((s.pendingInvoke || (s.actions ++ [a]).isEmpty || !s.hasExecutor) = true) := by
    simp [hpend, hexec]
  simp only [addAction, forceBatchBegin, if_pos hc1]
  split <;> simp_all

/-- One add leaves the queue at or below the cap whenever the cap is
non-negative, with no assumption on the starting length. -/
lemma addAction_len_le (s : QState α) (a : α) (hmax : 0 ≤ s.maxActions) :
    ((addAction s a).1.actions.length : Int) ≤ s.maxActions := by
  by_cases hov : ((s.actions ++ [a]).length : Int) > s.maxActions
  · simp only [addAction, if_pos hov]
    simp only [List.length_drop, List.length_append, List.length_singleton]
    simp only [List.length_append, List.length_singleton] at hov
    omega
  · simp only [addAction, if_neg hov, forceBatchBegin]
    push_neg at hov
    split
    · split <;> simp_all
    · split <;> simp_all

/-- Sequences of adds never change the configuration fields nor the
executor installation. -/
lemma addActions_fields (s : QState α) (l : List α) :
    (addActions s l).1.maxActions = s.maxActions ∧
    (addActions s l).1.autoInvoke = s.autoInvoke ∧
    (addActions s l).1.batchSize = s.batchSize ∧
    (addActions s l).1.debounceMs = s.debounceMs ∧
    (addActions s l).1.hasExecutor = s.hasExecutor := by
  induction l generalizing s with
  | nil => simp [addActions_nil]
  | cons a rest ih =>
    obtain ⟨f1, f2, f3, f4, f5⟩ := addAction_fields s a
    obtain ⟨g1, g2, g3, g4, g5⟩ := ih (addAction s a).1
    rw [addActions_cons]
    exact ⟨by rw [g1, f1], by rw [g2, f2], by rw [g3, f3],
           by rw [g4, f4], by rw [g5, f5]⟩

/-- Starting a flush never changes the configuration fields. -/
lemma forceBatchBegin_fields (s : QState α) :
    (forceBatchBegin s).1.maxActions = s.maxActions ∧
    (forceBatchBegin s).1.autoInvoke = s.autoInvoke ∧
    (forceBatchBegin s).1.batchSize = s.batchSize ∧
    (forceBatchBegin s).1.debounceMs = s.debounceMs ∧
    (forceBatchBegin s).1.hasExecutor = s.hasExecutor := by
  unfold forceBatchBegin
  split <;> simp

/-- Settling an executor call never changes the configuration fields. -/
lemma settleInvoke_fields (ok : Bool) (s : QState α) :
    (settleInvoke ok s).1.maxActions = s.maxActions ∧
    (settleInvoke ok s).1.autoInvoke = s.autoInvoke ∧
    (settleInvoke ok s).1.batchSize = s.batchSize ∧
    (settleInvoke ok s).1.debounceMs = s.debounceMs ∧
    (settleInvoke ok s).1.hasExecutor = s.hasExecutor := by
  unfold settleInvoke
  split
  · simp
  · split <;> simp

/-- Sequences of adds keep the queue at or below a non-negative cap. -/
lemma addActions_len_le (s : QState α) (l : List α) (hmax : 0 ≤ s.maxActions)
    (hlen : (s.actions.length : Int) ≤ s.maxActions) :
    ((addActions s l).1.actions.length : Int) ≤ s.maxActions := by
  induction l generalizing s with
  | nil => simpa [addActions_nil] using hlen
  | cons a rest ih =>
    obtain ⟨f1, _, _, _, _⟩ := addAction_fields s a
    have h1 := addAction_len_le s a hmax
    rw [addActions_cons]
    have := ih (addAction s a).1 (by rw [f1]; exact hmax) (by rw [f1]; exact h1)
    rw [f1] at this
    exact this

/-! ## Claim theorems -/

/-- C5: any `add` that pushes the queue length past `maxActions` leaves a
queue of length exactly `maxActions`, and the survivors are exactly the
appended queue with its oldest `priorLength + 1 - maxActions` elements
dropped from the front. -/
theorem c5_overflow_eviction (s : QState α) (a : α)
    (hmax : 0 < s.maxActions)
    (hover : (s.actions.length + 1 : Int) > s.maxActions) :
    ((addAction s a).1.actions.length : Int) = s.maxActions
  ∧ (addAction s a).1.actions
      = (s.actions ++ [a]).drop ((s.actions.length + 1 - s.maxActions).toNat) := by
  have hov : ((s.actions ++ [a]).length : Int) > s.maxActions := by
    simp only [List.length_append, List.length_singleton]
    omega
  have hdrop : (addAction s a).1.actions
      = (s.actions ++ [a]).drop ((((s.actions ++ [a]).length : Int) - s.maxActions).toNat) := by
    simp only [addAction, if_pos hov]
  constructor
  · rw [hdrop]
    simp only [List.length_drop, List.length_append, List.length_singleton]
    simp only [List.length_append, List.length_singleton] at hov
    omega
  · rw [hdrop]
    congr 2
    simp only [List.length_append, List.length_singleton]
    push_cast
    ring

/-- Witness for C5: concrete scenario 1 of the spec — cap 3, batch size 10,
auto-execute on; after adding actions 0, 1, 2, adding action 3 overflows,
and the queue ends as [1, 2, 3] (the oldest evicted). -/
theorem c5_overflow_eviction_witness :
    (0 : Int) < (addActions (initState ℕ ⟨3, true, 10, 1000⟩ true) [0, 1, 2]).1.maxActions
  ∧ (((addActions (initState ℕ ⟨3, true, 10, 1000⟩ true) [0, 1, 2]).1.actions.length + 1 : Int)
      > (addActions (initState ℕ ⟨3, true, 10, 1000⟩ true) [0, 1, 2]).1.maxActions)
  ∧ (addAction (addActions (initState ℕ ⟨3, true, 10, 1000⟩ true) [0, 1, 2]).1 3).1.actions
      = [1, 2, 3] := by
  refine ⟨by decide, by decide, ?_⟩
  rw [(c5_overflow_eviction
        (addActions (initState ℕ ⟨3, true, 10, 1000⟩ true) [0, 1, 2]).1 3
        (by decide) (by decide)).2]
  decide

/-- C7: a flush attempt on a state with an execution pending, or an empty
queue, or no executor installed, returns immediately: no executor call, no
error, no state change. -/
theorem c7_flush_guard_noop (s : QState α)
    (h : s.pendingInvoke = true ∨ s.actions = [] ∨ s.hasExecutor = false) :
    forceBatchBegin s = (s, []) := by
  have hcond : (s.pendingInvoke || s.actions.isEmpty || !s.hasExecutor) = true := by
    rcases h with h | h | h <;> simp [h]
  simp [forceBatchBegin, hcond]

/-- Witness for C7: concrete scenario 4 — `executeNow()` on a freshly
created (empty) queue is a no-op and never calls the executor. -/
theorem c7_flush_guard_noop_witness :
    forceBatchBegin (initState ℕ ⟨50, true, 10, 1000⟩ true)
      = (initState ℕ ⟨50, true, 10, 1000⟩ true, []) :=
  c7_flush_guard_noop _ (Or.inr (Or.inl rfl))

/-- C8: `addMultiple` (the `forEach`-based `addActions`) produces exactly
the same end state and the same event sequence as invoking `add` once per
element in order, with trigger evaluation after each individual append. -/
theorem c8_addMultiple_is_sequential_adds (s : QState α) (l : List α) :
    addActions s l = addSequentially s l :=
  addActions_eq_seq s l

/-- C4: whenever the executor call of a flush fails, the configured
`onError` callback is invoked with the failed batch (the error value itself
is opaque), and the batch is prepended back onto the queue.  In particular,
with an always-rejecting executor and batch size 1, adding a single action
`a` leads to `submit [a]`, then `onError` with batch `[a]`, and the queue
reads `[a]` again. -/
theorem c4_onError_on_failure (s : QState α) (B : List α) (a : α)
    (hin : s.inFlight = some B) :
    ((settleInvoke false s).2 = [QEvent.errorCallback B]
      ∧ (settleInvoke false s).1.actions = B ++ s.actions)
  ∧ ((addAction (initState α ⟨50, true, 1, 1000⟩ true) a).2
        = [QEvent.submit [a]]
      ∧ (settleInvoke false (addAction (initState α ⟨50, true, 1, 1000⟩ true) a).1).2
        = [QEvent.errorCallback [a]]
      ∧ (settleInvoke false (addAction (initState α ⟨50, true, 1, 1000⟩ true) a).1).1.actions
        = [a]) := by
  constructor
  · constructor <;> simp [settleInvoke, hin]
  · exact ⟨rfl, rfl, rfl⟩

/-- Witness for C4 at a concrete state: a failed batch [5] in flight over a
queue holding [9] is re-queued in front, after invoking `onError` with [5]. -/
theorem c4_onError_on_failure_witness :
    ((settleInvoke false (⟨[9], 50, true, 10, 1000, true, false, true, some [5]⟩ : QState ℕ)).2
        = [QEvent.errorCallback [5]]
      ∧ (settleInvoke false (⟨[9], 50, true, 10, 1000, true, false, true, some [5]⟩ : QState ℕ)).1.actions
        = [5] ++ [9])
  ∧ ((addAction (initState ℕ ⟨50, true, 1, 1000⟩ true) 7).2
        = [QEvent.submit [7]]
      ∧ (settleInvoke false (addAction (initState ℕ ⟨50, true, 1, 1000⟩ true) 7).1).2
        = [QEvent.errorCallback [7]]
      ∧ (settleInvoke false (addAction (initState ℕ ⟨50, true, 1, 1000⟩ true) 7).1).1.actions
        = [7]) :=
  c4_onError_on_failure (⟨[9], 50, true, 10, 1000, true, false, true, some [5]⟩ : QState ℕ) [5] 7 rfl

/-- C9: each resolved configuration field is the explicit value when the
explicit object defines it; otherwise the environment value when an
environment variable is set and parses (process env first, window env as
fallback); otherwise the hardcoded default (`maxActions = 50`,
`autoInvoke = true`, `batchSize = 10`, `debounceMs = 1000`). -/
theorem c9_config_precedence (e : PartialConfig)
    (penv wenv : String → Option String) :
    (∀ v, e.maxActionsField = some v → (resolveConfig e penv wenv).maxActions = v)
  ∧ (∀ v, e.autoInvokeField = some v → (resolveConfig e penv wenv).autoInvoke = v)
  ∧ (∀ v, e.batchSizeField = some v → (resolveConfig e penv wenv).batchSize = v)
  ∧ (∀ v, e.debounceMsField = some v → (resolveConfig e penv wenv).debounceMs = v)
  ∧ (e.maxActionsField = none →
      ∀ n, (penv "FOC_MAX_ACTIONS").bind jsNumber? = some n →
        (resolveConfig e penv wenv).maxActions = n)
  ∧ (e.autoInvokeField = none →
      ∀ v, penv "FOC_AUTO_INVOKE" = some v →
        (resolveConfig e penv wenv).autoInvoke = jsTruthyFlag v)
  ∧ (e.batchSizeField = none →
      ∀ n, (penv "FOC_BATCH_SIZE").bind jsNumber? = some n →
        (resolveConfig e penv wenv).batchSize = n)
  ∧ (e.debounceMsField = none →
      ∀ n, (penv "FOC_DEBOUNCE_MS").bind jsNumber? = some n →
        (resolveConfig e penv wenv).debounceMs = n)
  ∧ (e.maxActionsField = none →
      (penv "FOC_MAX_ACTIONS").bind jsNumber? = none →
      (wenv "FOC_MAX_ACTIONS").bind jsNumber? = none →
        (resolveConfig e penv wenv).maxActions = 50)
  ∧ (e.autoInvokeField = none → penv "FOC_AUTO_INVOKE" = none →
      wenv "FOC_AUTO_INVOKE" = none →
        (resolveConfig e penv wenv).autoInvoke = true)
  ∧ (e.batchSizeField = none →
      (penv "FOC_BATCH_SIZE").bind jsNumber? = none →
      (wenv "FOC_BATCH_SIZE").bind jsNumber? = none →
        (resolveConfig e penv wenv).batchSize = 10)
  ∧ (e.debounceMsField = none →
      (penv "FOC_DEBOUNCE_MS").bind jsNumber? = none →
      (wenv "FOC_DEBOUNCE_MS").bind jsNumber? = none →
        (resolveConfig e penv wenv).debounceMs = 1000) := by
  refine ⟨?_, ?_, ?_, ?_, ?_, ?_, ?_, ?_, ?_, ?_, ?_, ?_⟩
  · intro v hv
    simp [resolveConfig, hv]
  · intro v hv
    simp [resolveConfig, hv]
  · intro v hv
    simp [resolveConfig, hv]
  · intro v hv
    simp [resolveConfig, hv]
  · intro hnone n hn
    simp [resolveConfig, getDefaultConfig, getEnvNumber, hnone, hn]
  · intro hnone v hv
    simp [resolveConfig, getDefaultConfig, getEnvBoolean, hnone, hv]
  · intro hnone n hn
    simp [resolveConfig, getDefaultConfig, getEnvNumber, hnone, hn]
  · intro hnone n hn
    simp [resolveConfig, getDefaultConfig, getEnvNumber, hnone, hn]
  · intro hnone hp hw
    simp [resolveConfig, getDefaultConfig, getEnvNumber, hnone, hp, hw]
  · intro hnone hp hw
    simp [resolveConfig, getDefaultConfig, getEnvBoolean, hnone, hp, hw]
  · intro hnone hp hw
    simp [resolveConfig, getDefaultConfig, getEnvNumber, hnone, hp, hw]
  · intro hnone hp hw
    simp [resolveConfig, getDefaultConfig, getEnvNumber, hnone, hp, hw]

/-- Witness for C9: an explicit `maxActions = 7` beats the environment, a
process-env `FOC_BATCH_SIZE = "3"` beats the default, and an unset
`FOC_DEBOUNCE_MS` falls back to the default 1000. -/
theorem c9_config_precedence_witness :
    (resolveConfig ⟨some 7, none, none, none⟩
        (fun k => if k = "FOC_BATCH_SIZE" then some "3" else none)
        (fun _ => none)).maxActions = 7
  ∧ (resolveConfig ⟨some 7, none, none, none⟩
        (fun k => if k = "FOC_BATCH_SIZE" then some "3" else none)
        (fun _ => none)).batchSize = 3
  ∧ (resolveConfig ⟨some 7, none, none, none⟩
        (fun k => if k = "FOC_BATCH_SIZE" then some "3" else none)
        (fun _ => none)).debounceMs = 1000 := by
  have h := c9_config_precedence ⟨some 7, none, none, none⟩
    (fun k => if k = "FOC_BATCH_SIZE" then some "3" else none)
    (fun _ => none)
  exact ⟨h.1 7 rfl,
         h.2.2.2.2.2.2.1 rfl 3 (by decide),
         h.2.2.2.2.2.2.2.2.2.2.2 rfl (by decide) (by decide)⟩

/-- C10: the configuration predicate `maxActions > 0 ∧ batchSize > 0 ∧
debounceMs ≥ 0` holds for the default initial state and is preserved by
every operation; each setter ignores an out-of-range value (no error,
state unchanged), and `updateConfig` forwards to the setters so an invalid
field of a partial configuration is silently ignored. -/
theorem c10_config_validity (hasExec : Bool) :
    ConfigValid (initState α (getDefaultConfig (fun _ => none) (fun _ => none)) hasExec)
  ∧ (∀ (s : QState α) (m : Int), m ≤ 0 → setMaxActions s m = s)
  ∧ (∀ (s : QState α) (n : Int), n ≤ 0 → setBatchSize s n = s)
  ∧ (∀ (s : QState α) (n : Int), n < 0 → setDebounceMs s n = s)
  ∧ (∀ (s : QState α) (m : Int), m ≤ 0 → updateConfig s ⟨some m, none, none, none⟩ = s)
  ∧ (∀ (s : QState α) (n : Int), n ≤ 0 → updateConfig s ⟨none, none, some n, none⟩ = s)
  ∧ (∀ (s : QState α) (n : Int), n < 0 → updateConfig s ⟨none, none, none, some n⟩ = s)
  ∧ (∀ (s : QState α) (m : Int), ConfigValid s → ConfigValid (setMaxActions s m))
  ∧ (∀ (s : QState α) (b : Bool), ConfigValid s → ConfigValid (setAutoInvoke s b))
  ∧ (∀ (s : QState α) (n : Int), ConfigValid s → ConfigValid (setBatchSize s n))
  ∧ (∀ (s : QState α) (n : Int), ConfigValid s → ConfigValid (setDebounceMs s n))
  ∧ (∀ (s : QState α) (p : PartialConfig), ConfigValid s → ConfigValid (updateConfig s p))
  ∧ (∀ (s : QState α) (a : α), ConfigValid s → ConfigValid (addAction s a).1)
  ∧ (∀ (s : QState α) (l : List α), ConfigValid s → ConfigValid (addActions s l).1)
  ∧ (∀ (s : QState α), ConfigValid s → ConfigValid (clearActions s))
  ∧ (∀ (s : QState α), ConfigValid s → ConfigValid (forceBatchBegin s).1)
  ∧ (∀ (s : QState α) (ok : Bool), ConfigValid s → ConfigValid (settleInvoke ok s).1) := by
  have hsetMax : ∀ (s : QState α) (m : Int), ConfigValid s → ConfigValid (setMaxActions s m) := by
    intro s m h
    unfold setMaxActions
    split
    · exact ⟨by assumption, h.2.1, h.2.2⟩
    · exact h
  have hsetAuto : ∀ (s : QState α) (b : Bool), ConfigValid s → ConfigValid (setAutoInvoke s b) := by
    intro s b h
    exact h
  have hsetBatch : ∀ (s : QState α) (n : Int), ConfigValid s → ConfigValid (setBatchSize s n) := by
    intro s n h
    unfold setBatchSize
    split
    · exact ⟨h.1, by assumption, h.2.2⟩
    · exact h
  have hsetDeb : ∀ (s : QState α) (n : Int), ConfigValid s → ConfigValid (setDebounceMs s n) := by
    intro s n h
    unfold setDebounceMs
    split
    · exact ⟨h.1, h.2.1, by assumption⟩
    · exact h
  have step1 : ∀ (q : Option Int) (s : QState α), ConfigValid s →
      ConfigValid (match q with | some m => setMaxActions s m | none => s) := by
    intro q s h
    cases q
    · exact h
    · exact hsetMax _ _ h
  have step2 : ∀ (q : Option Bool) (s : QState α), ConfigValid s →
      ConfigValid (match q with | some b => setAutoInvoke s b | none => s) := by
    intro q s h
    cases q
    · exact h
    · exact hsetAuto _ _ h
  have step3 : ∀ (q : Option Int) (s : QState α), ConfigValid s →
      ConfigValid (match q with | some n => setBatchSize s n | none => s) := by
    intro q s h
    cases q
    · exact h
    · exact hsetBatch _ _ h
  have step4 : ∀ (q : Option Int) (s : QState α), ConfigValid s →
      ConfigValid (match q with | some n => setDebounceMs s n | none => s) := by
    intro q s h
    cases q
    · exact h
    · exact hsetDeb _ _ h
  have hupd : ∀ (s : QState α) (p : PartialConfig), ConfigValid s → ConfigValid (updateConfig s p) := by
    intro s p h
    exact step4 p.debounceMsField _ (step3 p.batchSizeField _
      (step2 p.autoInvokeField _ (step1 p.maxActionsField _ h)))
  have hinit : ConfigValid
      (initState α (getDefaultConfig (fun _ => none) (fun _ => none)) hasExec) := by
    refine ⟨?_, ?_, ?_⟩ <;>
      simp [initState, getDefaultConfig, getEnvNumber, getEnvBoolean, ConfigValid]
  refine ⟨hinit,
          ?_, ?_, ?_, ?_, ?_, ?_, hsetMax, hsetAuto, hsetBatch, hsetDeb, hupd,
          ?_, ?_, ?_, ?_, ?_⟩
  · intro s m hm
    unfold setMaxActions
    rw [if_neg (by omega)]
  · intro s n hn
    unfold setBatchSize
    rw [if_neg (by omega)]
  · intro s n hn
    unfold setDebounceMs
    rw [if_neg (by omega)]
  · intro s m hm
    simp only [updateConfig]
    unfold setMaxActions
    rw [if_neg (by omega)]
  · intro s n hn
    simp only [updateConfig]
    unfold setBatchSize
    rw [if_neg (by omega)]
  · intro s n hn
    simp only [updateConfig]
    unfold setDebounceMs
    rw [if_neg (by omega)]
  · intro s a h
    obtain ⟨f1, _, f3, f4, _⟩ := addAction_fields s a
    exact ⟨by rw [f1]; exact h.1, by rw [f3]; exact h.2.1, by rw [f4]; exact h.2.2⟩
  · intro s l h
    obtain ⟨f1, _, f3, f4, _⟩ := addActions_fields s l
    exact ⟨by rw [f1]; exact h.1, by rw [f3]; exact h.2.1, by rw [f4]; exact h.2.2⟩
  · intro s h
    exact h
  · intro s h
    obtain ⟨f1, _, f3, f4, _⟩ := forceBatchBegin_fields s
    exact ⟨by rw [f1]; exact h.1, by rw [f3]; exact h.2.1, by rw [f4]; exact h.2.2⟩
  · intro s ok h
    obtain ⟨f1, _, f3, f4, _⟩ := settleInvoke_fields ok s
    exact ⟨by rw [f1]; exact h.1, by rw [f3]; exact h.2.1, by rw [f4]; exact h.2.2⟩

/-- Witness for C10: setting `maxActions` to -5 (and batch size 0, negative
debounce) on a concrete valid state is silently ignored. -/
theorem c10_config_validity_witness :
    ConfigValid (initState ℕ (getDefaultConfig (fun _ => none) (fun _ => none)) true)
  ∧ setMaxActions (initState ℕ ⟨50, true, 10, 1000⟩ true) (-5)
      = initState ℕ ⟨50, true, 10, 1000⟩ true
  ∧ updateConfig (initState ℕ ⟨50, true, 10, 1000⟩ true) ⟨none, none, some 0, none⟩
      = initState ℕ ⟨50, true, 10, 1000⟩ true
  ∧ updateConfig (initState ℕ ⟨50, true, 10, 1000⟩ true) ⟨none, none, none, some (-1)⟩
      = initState ℕ ⟨50, true, 10, 1000⟩ true :=
  ⟨(c10_config_validity true).1,
   (c10_config_validity true).2.1 _ (-5) (by decide),
   (c10_config_validity true).2.2.2.2.2.1 _ 0 (by decide),
   (c10_config_validity true).2.2.2.2.2.2.1 _ (-1) (by decide)⟩

/-- Counterexample to C1 as stated: cap 1, auto-invoke off, executor
installed; add action 7, start a flush (batch [7] in flight), add action 8
while in flight, and let the executor reject.  The failure re-queue leaves
the queue at length 2, exceeding the cap of 1. -/
def requeueOverflowTrace : QState ℕ :=
  (settleInvoke false
    (addAction
      (forceBatchBegin
        (addAction (initState ℕ ⟨1, false, 10, 0⟩ true) 7).1).1
      8).1).1

theorem c1_counterexample :
    ¬ ((requeueOverflowTrace.actions.length : Int)
        ≤ requeueOverflowTrace.maxActions) := by decide

/-- C1 (amended): with a non-negative cap, the queue length stays at most
`maxActions` after `add`, `addMultiple`, `clear`, the start of a flush
(`executeNow`), and a successful completion; a failed completion is the
exception — it prepends the failed batch and may exceed the cap (see the
counterexample) until a later add re-applies eviction. -/
theorem c1_queue_bound_amended (s : QState α) (a : α) (l : List α)
    (hmax : 0 ≤ s.maxActions)
    (hlen : (s.actions.length : Int) ≤ s.maxActions) :
    ((addAction s a).1.actions.length : Int) ≤ s.maxActions
  ∧ ((addActions s l).1.actions.length : Int) ≤ s.maxActions
  ∧ ((clearActions s).actions.length : Int) ≤ s.maxActions
  ∧ ((forceBatchBegin s).1.actions.length : Int) ≤ s.maxActions
  ∧ ((settleInvoke true s).1.actions.length : Int) ≤ s.maxActions := by
  refine ⟨addAction_len_le s a hmax, addActions_len_le s l hmax hlen, ?_, ?_, ?_⟩
  · simpa [clearActions] using hmax
  · unfold forceBatchBegin
    split
    · exact hlen
    · simpa using hmax
  · unfold settleInvoke
    rcases hf : s.inFlight with _ | B
    · exact hlen
    · simpa using hlen

/-- Witness for C1 (amended): a concrete valid state with a full queue of
three actions under a cap of 3. -/
theorem c1_queue_bound_amended_witness :
    (0 : Int) ≤ 3
  ∧ ((((addActions (initState ℕ ⟨3, true, 10, 1000⟩ true) [0, 1, 2]).1.actions.length : Int) ≤ 3)
  ∧ (((addAction (addActions (initState ℕ ⟨3, true, 10, 1000⟩ true) [0, 1, 2]).1 9).1.actions.length : Int)
        ≤ (addActions (initState ℕ ⟨3, true, 10, 1000⟩ true) [0, 1, 2]).1.maxActions
  ∧ ((addActions (addActions (initState ℕ ⟨3, true, 10, 1000⟩ true) [0, 1, 2]).1 [4, 5]).1.actions.length : Int)
        ≤ (addActions (initState ℕ ⟨3, true, 10, 1000⟩ true) [0, 1, 2]).1.maxActions
  ∧ ((clearActions (addActions (initState ℕ ⟨3, true, 10, 1000⟩ true) [0, 1, 2]).1).actions.length : Int)
        ≤ (addActions (initState ℕ ⟨3, true, 10, 1000⟩ true) [0, 1, 2]).1.maxActions
  ∧ ((forceBatchBegin (addActions (initState ℕ ⟨3, true, 10, 1000⟩ true) [0, 1, 2]).1).1.actions.length : Int)
        ≤ (addActions (initState ℕ ⟨3, true, 10, 1000⟩ true) [0, 1, 2]).1.maxActions
  ∧ ((settleInvoke true (addActions (initState ℕ ⟨3, true, 10, 1000⟩ true) [0, 1, 2]).1).1.actions.length : Int)
        ≤ (addActions (initState ℕ ⟨3, true, 10, 1000⟩ true) [0, 1, 2]).1.maxActions)) := by
  refine ⟨by decide, by decide, ?_⟩
  exact c1_queue_bound_amended
    (addActions (initState ℕ ⟨3, true, 10, 1000⟩ true) [0, 1, 2]).1 9 [4, 5]
    (by decide) (by decide)

/-- Counterexample to C6 as stated: auto-execute off, batch size 10, cap 2;
adding the three actions 0, 1, 2 (count 3 ≤ batch size) ends with queue
[1, 2], not [0, 1, 2] — the overflow eviction still applies. -/
theorem c6_counterexample :
    ((([0, 1, 2] : List ℕ).length : Int)
        ≤ (initState ℕ ⟨2, false, 10, 1000⟩ true).batchSize)
  ∧ ¬ ((addActions (initState ℕ ⟨2, false, 10, 1000⟩ true) [0, 1, 2]).1.actions
        = [0, 1, 2]) := by
  constructor <;> decide

/-- C6 (amended): with auto-execute off, any add sequence whose count is at
most `batchSize` **and at most `maxActions`** leaves exactly those actions
in insertion order and never invokes the executor (counts above the cap are
evicted oldest-first, see the counterexample). -/
theorem c6_manual_mode_amended (s : QState α) (l : List α)
    (hq : s.actions = []) (hauto : s.autoInvoke = false)
    (hbs : (l.length : Int) ≤ s.batchSize)
    (hmax : (l.length : Int) ≤ s.maxActions) :
    (addActions s l).1.actions = l ∧ (addActions s l).2 = [] := by
  obtain ⟨ha, he, _⟩ := addSeq_no_flush l s (Or.inr (Or.inl hauto))
    (by rw [hq]; simpa using hmax)
  rw [ha, he, hq]
  exact ⟨List.nil_append l, rfl⟩

/-- Witness for C6 (amended): two adds under auto-execute off leave the
queue [4, 5] with no executor events. -/
theorem c6_manual_mode_amended_witness :
    ((([4, 5] : List ℕ).length : Int) ≤ (initState ℕ ⟨50, false, 10, 1000⟩ true).batchSize)
  ∧ (addActions (initState ℕ ⟨50, false, 10, 1000⟩ true) [4, 5]).1.actions = [4, 5]
  ∧ (addActions (initState ℕ ⟨50, false, 10, 1000⟩ true) [4, 5]).2 = [] := by
  refine ⟨by decide, ?_⟩
  exact c6_manual_mode_amended (initState ℕ ⟨50, false, 10, 1000⟩ true) [4, 5]
    rfl rfl (by decide) (by decide)

/-- Counterexample to C2 as stated: batch size 3 with cap 1 (auto-execute
on, executor installed, debounce 0).  Adding three actions reaches exactly
`batchSize`, yet the executor is never called — eviction keeps the live
queue length below the threshold at every step. -/
theorem c2_counterexample :
    ((([0, 1, 2] : List ℕ).length : Int)
        = (initState ℕ ⟨1, true, 3, 0⟩ true).batchSize)
  ∧ (addActions (initState ℕ ⟨1, true, 3, 0⟩ true) [0, 1, 2]).2 = [] := by
  constructor <;> decide

/-- C2 (amended): starting from an empty queue with auto-execute on, an
executor installed, no execution in flight, and **`batchSize ≤ maxActions
+ 1`**, a sequence of adds whose count reaches exactly `batchSize` invokes
the executor exactly once, with a batch equal to the full queue contents at
trigger time (all added actions); and whenever a flush begins, the queue is
empty immediately afterwards. -/
theorem c2_exact_batch_trigger_amended (s : QState α) (l : List α) (a : α)
    (hq : s.actions = []) (hpend : s.pendingInvoke = false)
    (hexec : s.hasExecutor = true) (hauto : s.autoInvoke = true)
    (hbs : (l.length + 1 : Int) = s.batchSize)
    (hle : s.batchSize ≤ s.maxActions + 1) :
    (addActions s (l ++ [a])).2 = [QEvent.submit (l ++ [a])]
  ∧ (∀ t : QState α, t.pendingInvoke = false → t.hasExecutor = true →
      t.actions ≠ [] → (forceBatchBegin t).1.actions = []) := by
  constructor
  · have hq0 : (s.actions.length : Int) = 0 := by rw [hq]; rfl
    obtain ⟨ha, he, hp, _, f1, f2, f3, _, f5⟩ := addSeq_no_flush l s
      (Or.inr (Or.inr (by rw [hq0]; omega)))
      (by rw [hq0]; omega)
    have ha2 : (addActions s l).1.actions = l := by rw [ha, hq]; exact List.nil_append l
    have hlen2 : ((addActions s l).1.actions.length + 1 : Int) ≥ (addActions s l).1.batchSize := by
      rw [ha2, f3]
      omega
    have hev := addAction_trigger_events (addActions s l).1 a
      (by rw [f2, hauto]) hlen2 (by rw [hp, hpend]) (by rw [f5, hexec])
    rw [addActions_append, he, addActions_cons, addActions_nil]
    simp only [List.nil_append, List.append_nil]
    rw [hev, ha2]
  · intro t h1 h2 h3
    unfold forceBatchBegin
    rw [if_neg (by simp [h1, h2, h3])]

/-- Witness for C2 (amended): concrete scenario 2 of the spec — batch size
2, auto-execute on, debounce 0; adding actions 0 then 1 calls the executor
once with [0, 1]. -/
theorem c2_exact_batch_trigger_amended_witness :
    ((([0] : List ℕ).length + 1 : Int) = (initState ℕ ⟨50, true, 2, 0⟩ true).batchSize)
  ∧ ((addActions (initState ℕ ⟨50, true, 2, 0⟩ true) ([0] ++ [1])).2
      = [QEvent.submit ([0] ++ [1])]
  ∧ (∀ t : QState ℕ, t.pendingInvoke = false → t.hasExecutor = true →
      t.actions ≠ [] → (forceBatchBegin t).1.actions = [])) := by
  refine ⟨by decide, ?_⟩
  exact c2_exact_batch_trigger_amended (initState ℕ ⟨50, true, 2, 0⟩ true) [0] 1
    rfl rfl rfl rfl (by decide) (by decide)

/-- Counterexample to C3 as stated: cap 1; batch [0] is in flight when
actions 1 and 2 are added; the add of 2 evicts 1, so after the rejection
the queue is [0, 2], not [0, 1, 2] — the elements added during the flight
are not all present. -/
theorem c3_counterexample :
    (settleInvoke false
        (addActions
          (forceBatchBegin (addAction (initState ℕ ⟨1, false, 5, 0⟩ true) 0).1).1
          [1, 2]).1).1.actions ≠ [0, 1, 2] := by decide

/-- C3 (amended): if batch `B` is in flight over the emptied queue and **at
most `maxActions`** actions are added before the executor rejects, the
queue immediately after the failure is exactly `B` followed by those adds
in insertion order (with more adds, the during-flight portion is itself
evicted oldest-first, see the counterexample). -/
theorem c3_requeue_amended (s : QState α) (B : List α) (l : List α)
    (hin : s.inFlight = some B) (hpend : s.pendingInvoke = true)
    (hq : s.actions = [])
    (hlen : (l.length : Int) ≤ s.maxActions) :
    (settleInvoke false (addActions s l).1).1.actions = B ++ l := by
  have hq0 : (s.actions.length : Int) = 0 := by rw [hq]; rfl
  obtain ⟨ha, _, _, hf, _⟩ := addSeq_no_flush l s (Or.inl hpend)
    (by rw [hq0]; omega)
  have ha2 : (addActions s l).1.actions = l := by rw [ha, hq]; exact List.nil_append l
  have hf2 : (addActions s l).1.inFlight = some B := by rw [hf, hin]
  simp [settleInvoke, hf2, ha2]

/-- Witness for C3 (amended): batch [7] in flight, actions 1 and 2 added
under cap 2; after the rejection the queue is [7, 1, 2]. -/
theorem c3_requeue_amended_witness :
    ((([1, 2] : List ℕ).length : Int)
        ≤ (⟨[], 2, true, 10, 0, true, false, true, some [7]⟩ : QState ℕ).maxActions)
  ∧ (settleInvoke false
        (addActions (⟨[], 2, true, 10, 0, true, false, true, some [7]⟩ : QState ℕ) [1, 2]).1).1.actions
      = [7] ++ [1, 2] := by
  refine ⟨by decide, ?_⟩
  exact c3_requeue_amended (⟨[], 2, true, 10, 0, true, false, true, some [7]⟩ : QState ℕ)
    [7] [1, 2] rfl rfl rfl (by decide)

end OnchainActions
